import Mathlib

/-!
# Verification of the quant-clean frontend engine model

A shallow embedding of the computational parts of the quant-clean
repository (the React frontend under `src/frontend/src` and
`src/unnamed/part_000..part_002`) together with proofs of the
behavioural claims made by its specification.

JavaScript numbers are modelled by `ℚ`; a possibly non-finite
JavaScript number (NaN / Infinity, arising from division by zero) is
modelled by `Option ℚ`, `none` standing for a non-finite value.
-/

namespace QuantClean

/-! ## Payoff model (src/frontend/src/PayoffChart.jsx) -/

/-- Option contract type, the `type` string field of a suggestion. -/
inductive OType where
  | CALL : OType
  | PUT : OType
deriving DecidableEq, Repr

/-- The payoff function traced by `PayoffChart`:
`CALL ↦ max(S - strike, 0) - premium`, `PUT ↦ max(strike - S, 0) - premium`
(PayoffChart.jsx lines 9–13). -/
def payoff (type : OType) (strike premium S : ℚ) : ℚ :=
  match type with
  | .CALL => max (S - strike) 0 - premium
  | .PUT => max (strike - S) 0 - premium

/-- Breakeven price of a contract, as the spec defines it:
`CALL → strike + mid_price`, `PUT → strike − mid_price`. -/
def breakeven (type : OType) (strike premium : ℚ) : ℚ :=
  match type with
  | .CALL => strike + premium
  | .PUT => strike - premium

/-- C1: for strike > 0, premium ≥ 0 and spot s0 > 0, the payoff computed by
`PayoffChart` evaluates to exactly 0 at the breakeven price
(`strike + premium` for a CALL, `strike − premium` for a PUT). -/
theorem payoff_at_breakeven_eq_zero (type : OType) (strike premium s0 : ℚ)
    (hstrike : 0 < strike) (hprem : 0 ≤ premium) (hs0 : 0 < s0) :
    payoff type strike premium (breakeven type strike premium) = 0 := by
  cases type <;>
    simp [payoff, breakeven, add_sub_cancel_left, sub_sub_cancel, max_eq_left hprem]

/-- Witness for C1: the CALL payoff with strike 5, premium 2 vanishes at
breakeven 7 (and the hypotheses hold at strike 5, premium 2, spot 10). -/
theorem payoff_at_breakeven_eq_zero_witness :
    payoff .CALL 5 2 (breakeven .CALL 5 2) = 0 :=
  payoff_at_breakeven_eq_zero .CALL 5 2 10 (by norm_num) (by norm_num) (by norm_num)

/-- C8: the CALL payoff traced by `PayoffChart` is monotonically nondecreasing
in the terminal price S, and the PUT payoff is monotonically nonincreasing. -/
theorem payoff_monotone (strike premium S₁ S₂ : ℚ)
    (hstrike : 0 < strike) (h : S₁ ≤ S₂) :
    payoff .CALL strike premium S₁ ≤ payoff .CALL strike premium S₂ ∧
    payoff .PUT strike premium S₂ ≤ payoff .PUT strike premium S₁ := by
  constructor
  · exact sub_le_sub_right (max_le_max (sub_le_sub_right h strike) le_rfl) premium
  · exact sub_le_sub_right (max_le_max (sub_le_sub_left h strike) le_rfl) premium

/-- Witness for C8: at strike 5, premium 2, prices 4 ≤ 9, the CALL payoff is
nondecreasing and the PUT payoff nonincreasing. -/
theorem payoff_monotone_witness :
    payoff .CALL 5 2 4 ≤ payoff .CALL 5 2 9 ∧
    payoff .PUT 5 2 9 ≤ payoff .PUT 5 2 4 :=
  payoff_monotone 5 2 4 9 (by norm_num) (by norm_num)

/-! ## Quick Screener result ordering (src/unnamed/part_001 lines 125–138,
src/frontend/src/main.jsx lines 177–185) -/

/-- A scan result row as consumed by `QuickScreener`; only the fields the
ordering touches are modelled. -/
structure ScoreRow where
  symbol : String
  score : ℚ
deriving DecidableEq, Repr

/-- The comparator relation of `sort((a,b)=>b.score-a.score)`: `a` may come
before `b` exactly when the comparator is nonpositive, i.e. `b.score ≤ a.score`. -/
def scoreDescRel (a b : ScoreRow) : Prop := b.score ≤ a.score

instance : DecidableRel scoreDescRel := fun a b => inferInstanceAs (Decidable (b.score ≤ a.score))

instance : IsTotal ScoreRow scoreDescRel := ⟨fun a b => le_total b.score a.score⟩

instance : IsTrans ScoreRow scoreDescRel := ⟨fun _ _ _ hab hbc => le_trans hbc hab⟩

/-- The ordering step of `QuickScreener.scan`,
`(data?.results||[]).slice().sort((a,b)=>b.score-a.score)`: a stable sort by
score descending (JavaScript `Array.prototype.sort` is stable). -/
def scanSort (rows : List ScoreRow) : List ScoreRow :=
  List.insertionSort scoreDescRel rows

/-- The ordering the claim asserts for the displayed rows: `a` precedes `b`
iff `a.score > b.score`, or `a.score = b.score` and `a.symbol < b.symbol`. -/
def claimPrecedes (a b : ScoreRow) : Prop :=
  b.score < a.score ∨ (a.score = b.score ∧ a.symbol < b.symbol)

instance : DecidableRel claimPrecedes := fun a b =>
  inferInstanceAs (Decidable (b.score < a.score ∨ (a.score = b.score ∧ a.symbol < b.symbol)))

/-- Counterexample to C2: on the response `[⟨"B",1⟩, ⟨"A",1⟩]` the sort in the
code is stable and leaves the tied rows in response order, so `"B"` precedes `"A"`
even though the claimed symbol tie-break would require `"A"` first. -/
theorem scanSort_no_symbol_tiebreak :
    scanSort [⟨"B", 1⟩, ⟨"A", 1⟩] = [⟨"B", 1⟩, ⟨"A", 1⟩] ∧
    ¬ (scanSort [⟨"B", 1⟩, ⟨"A", 1⟩]).Pairwise claimPrecedes := by
  constructor
  · rfl
  · rw [show scanSort [⟨"B", 1⟩, ⟨"A", 1⟩] = [⟨"B", 1⟩, ⟨"A", 1⟩] from rfl]
    intro h
    have hBA : claimPrecedes ⟨"B", 1⟩ ⟨"A", 1⟩ :=
      (List.pairwise_cons.mp h).1 ⟨"A", 1⟩ (by simp)
    rcases hBA with hlt | ⟨_, hsym⟩
    · exact absurd hlt (by norm_num)
    · rw [show ({ symbol := "B", score := 1 } : ScoreRow).symbol = "B" from rfl,
        show ({ symbol := "A", score := 1 } : ScoreRow).symbol = "A" from rfl,
        String.lt_iff_toList_lt] at hsym
      exact absurd hsym (by decide)

/-- C2 amended: the caller orders the displayed results by score descending —
every row weakly precedes the rows after it by score — and the displayed list
is a permutation of the results of the response; ties keep the relative order
of the response itself (stable sort), not the symbol order. -/
theorem scanSort_sorted_desc (rows : List ScoreRow) :
    (scanSort rows).Pairwise scoreDescRel ∧ List.Perm (scanSort rows) rows :=
  ⟨List.sorted_insertionSort scoreDescRel rows, List.perm_insertionSort scoreDescRel rows⟩

/-! ## Market Highlights (src/unnamed/part_001 lines 57–71,
src/frontend/src/main.jsx lines 61–74, src/unnamed/part_002 line 140) -/

/-- One sector row of the `/api/screener/sectors` response. -/
structure SectorRow where
  sector : String
  symbol : String
  change_5d : ℚ
deriving DecidableEq, Repr

/-- The `/api/screener/sectors` response body. -/
structure SectorsResp where
  sectors : List SectorRow
  note : Option String
deriving DecidableEq, Repr

/-- One gainer entry of the `/api/screener/top-movers` response. -/
structure Gainer where
  ticker : String
  price : ℚ
  change_percentage : String
deriving DecidableEq, Repr

/-- The `/api/screener/top-movers` response body. -/
structure MoversResp where
  top_gainers : List Gainer
deriving DecidableEq, Repr

/-- The `MarketHighlights` component state written by `reload`. -/
structure HighlightsState where
  sectors : List SectorRow
  gainers : List Gainer
  note : Option String
deriving DecidableEq, Repr

/-- The body of `MarketHighlights.reload`: the two requests run under `Promise.all`, the
top-movers request wrapped in `.catch(()=>({top_gainers:[]}))`; on success the
state is set from the responses (gainers truncated by `slice(0,8)`), and only a
sectors failure reaches the outer `catch`, which keeps the previous lists and
sets the provider note. -/
def reload (prev : HighlightsState) (sec : Except Unit SectorsResp)
    (mov : Except Unit MoversResp) : HighlightsState :=
  let movCaught : MoversResp :=
    match mov with
    | .ok m => m
    | .error _ => ⟨[]⟩
  match sec with
  | .ok s => ⟨s.sectors, movCaught.top_gainers.take 8, s.note⟩
  | .error _ =>
      ⟨prev.sectors, prev.gainers, some "Provider temporarily unavailable. Try again in a minute."⟩

/-- C5: a failed top-movers request degrades only the gainers list (it becomes
empty); the sector rows and the sector note from the other request are still
set, and the composite reload is not aborted. -/
theorem reload_movers_failure (prev : HighlightsState) (s : SectorsResp) :
    reload prev (.ok s) (.error ()) = ⟨s.sectors, [], s.note⟩ :=
  rfl

/-- The gainers list shown by the UI: `(top_gainers||[]).slice(0,8)`
(src/unnamed/part_001 line 66, main.jsx line 70, part_002 line 140). -/
def displayedGainers (mov : MoversResp) : List Gainer :=
  mov.top_gainers.take 8

/-- C10: at most 8 gainers are displayed, however many the response holds. -/
theorem displayedGainers_length_le_8 (mov : MoversResp) :
    (displayedGainers mov).length ≤ 8 := by
  simp [displayedGainers]

/-! ## Suggestion rendering (src/unnamed/part_002 lines 31–56,
src/frontend/src/main.jsx line 277) -/

/-- A simulation result as the frontend consumes it; each percentile field may
be absent (`undefined`), checked separately by the rendering code. -/
structure SimulationResult where
  prob_profit : Option ℚ
  pl_p5 : Option ℚ
  pl_p50 : Option ℚ
  pl_p95 : Option ℚ
deriving DecidableEq, Repr

/-- The contract fields `SuggestionCard` displays. -/
structure Contract where
  type : OType
  expiry : String
  strike : ℚ
  mid_price : ℚ
  delta : ℚ
  breakeven_price : ℚ
deriving DecidableEq, Repr

/-- An `Idea` as rendered: the suggestion plus an optional simulation. -/
structure Idea where
  symbol : String
  under_price : ℚ
  suggestion : Contract
  sim : Option SimulationResult
deriving DecidableEq, Repr

/-- What stands in the P/L slot of a rendered card: either the 3-bin histogram
over `[pl_p5, pl_p50, pl_p95]` (entries may be `undefined`, i.e. `none`) or the
`No simulation` placeholder. -/
inductive PlPanel where
  | histogram (values : List (Option ℚ)) : PlPanel
  | noSimulation : PlPanel
deriving DecidableEq, Repr

/-- The rendered suggestion output: the contract detail fields always shown by
`SuggestionCard`, the P/L slot, and the optional probability-of-profit line
(`res?.sim?.prob_profit!=null && ...` in main.jsx line 277). -/
structure RenderedCard where
  ctype : OType
  expiry : String
  strike : ℚ
  premium : ℚ
  delta : ℚ
  breakeven_price : ℚ
  plPanel : PlPanel
  probLine : Option ℚ
deriving DecidableEq, Repr

/-- The rendering of one suggestion: contract details are produced
unconditionally; the P/L slot holds the histogram only when
`sim?.pl_p50 !== undefined` (part_002 lines 49–51) and the `No simulation`
placeholder otherwise; the probability line is present only when
`sim?.prob_profit != null` (main.jsx line 277). -/
def renderSuggestionCard (idea : Idea) : RenderedCard :=
  let c := idea.suggestion
  { ctype := c.type
    expiry := c.expiry
    strike := c.strike
    premium := c.mid_price
    delta := c.delta
    breakeven_price := c.breakeven_price
    plPanel :=
      match idea.sim with
      | some s =>
          match s.pl_p50 with
          | some _ => .histogram [s.pl_p5, s.pl_p50, s.pl_p95]
          | none => .noSimulation
      | none => .noSimulation
    probLine := idea.sim.bind SimulationResult.prob_profit }

/-- C4: when the idea carries no usable simulation (no `sim`, or `sim.pl_p50`
undefined), the card still renders the full contract details, shows the
`No simulation` placeholder in the P/L slot, and the probability-of-profit
line appears only for a present `sim.prob_profit` — rendering never fails. -/
theorem renderSuggestionCard_missing_sim (idea : Idea)
    (h : idea.sim = none ∨ ∃ s, idea.sim = some s ∧ s.pl_p50 = none) :
    (renderSuggestionCard idea).plPanel = .noSimulation ∧
    (renderSuggestionCard idea).ctype = idea.suggestion.type ∧
    (renderSuggestionCard idea).expiry = idea.suggestion.expiry ∧
    (renderSuggestionCard idea).strike = idea.suggestion.strike ∧
    (renderSuggestionCard idea).premium = idea.suggestion.mid_price ∧
    (renderSuggestionCard idea).delta = idea.suggestion.delta ∧
    (renderSuggestionCard idea).breakeven_price = idea.suggestion.breakeven_price ∧
    (∀ p, (renderSuggestionCard idea).probLine = some p ↔
      ∃ s, idea.sim = some s ∧ s.prob_profit = some p) := by
  refine ⟨?_, rfl, rfl, rfl, rfl, rfl, rfl, ?_⟩
  · rcases h with h | ⟨s, h, hp50⟩ <;> simp [renderSuggestionCard, h]
    rw [hp50]
  · intro p
    simp [renderSuggestionCard, Option.bind_eq_some]

/-- Witness for C4: a concrete idea with `sim = none` renders the placeholder
with its contract details intact and no probability line. -/
theorem renderSuggestionCard_missing_sim_witness :
    (renderSuggestionCard ⟨"AAPL", 100, ⟨.CALL, "2025-11-21", 105, 3, 3/10, 108⟩, none⟩).plPanel
        = .noSimulation ∧
    (renderSuggestionCard ⟨"AAPL", 100, ⟨.CALL, "2025-11-21", 105, 3, 3/10, 108⟩, none⟩).ctype
        = OType.CALL ∧
    ¬ (renderSuggestionCard ⟨"AAPL", 100, ⟨.CALL, "2025-11-21", 105, 3, 3/10, 108⟩, none⟩).probLine
        = some (1/2) := by
  have h := renderSuggestionCard_missing_sim
    ⟨"AAPL", 100, ⟨.CALL, "2025-11-21", 105, 3, 3/10, 108⟩, none⟩ (Or.inl rfl)
  refine ⟨h.1, h.2.1, fun hc => ?_⟩
  rcases (h.2.2.2.2.2.2.2 (1/2)).mp hc with ⟨s, hs, _⟩
  exact Option.noConfusion hs

/-! ## PriceVolume chart coordinates (src/frontend/src/PriceVolume.jsx lines 3–11) -/

/-- JavaScript division: a zero divisor yields a non-finite number
(`0/0 = NaN`, `x/0 = ±Infinity`), modelled as `none`. -/
def jsDiv (a b : ℚ) : Option ℚ :=
  if b = 0 then none else some (a / b)

/-- The spread `Math.max(...xs)` over a list, as the chart components use it. -/
def listMax : List ℚ → ℚ
  | [] => 0
  | x :: xs => xs.foldl max x

/-- The spread `Math.min(...xs)` over a list. -/
def listMin : List ℚ → ℚ
  | [] => 0
  | x :: xs => xs.foldl min x

/-- The SVG polyline points computed by `PriceVolume` for a non-empty `closes`:
x-coordinate `(i/(closes.length-1))*420` and y-coordinate
`180 - ((c-minC)/(maxC-minC+1e-9))*180` (PriceVolume.jsx line 7). The
x denominator `closes.length-1` carries no `||1` guard. -/
def priceVolumePoints (closes : List ℚ) : List (Option ℚ × Option ℚ) :=
  let maxC := listMax closes
  let minC := listMin closes
  let n := closes.length
  (List.range n).zip closes |>.map fun p =>
    ((jsDiv (p.1 : ℚ) ((n : ℚ) - 1)).map (fun q => q * 420),
     (jsDiv (p.2 - minC) (maxC - minC + 1 / 1000000000)).map (fun q => 180 - q * 180))

/-- C6 evaluated at the failing input: for the non-empty, all-finite series
`closes = [100]`, the x-coordinate of the single point is `(0/(1-1))*420`, a
non-finite value (`0/0 = NaN`) that reaches the rendered polyline. -/
theorem priceVolumePoints_singleton_nan :
    priceVolumePoints [100] = [(none, some 180)] := by
  simp [priceVolumePoints, jsDiv, listMax, listMin, List.range_succ]

/-! ## Histogram binning (src/unnamed/part_002, charts.jsx lines 218–226) -/

/-- The bin width `step=(max-min||1)/bins`: when `max-min` is `0` the guard
substitutes `1` before dividing by `bins`. -/
def histStep (values : List ℚ) (bins : ℕ) : ℚ :=
  (if listMax values - listMin values = 0 then 1 else listMax values - listMin values) / bins

/-- The bin index `Math.min(bins-1, Math.max(0, Math.floor((v-min)/step)))`
assigned to one value. -/
def binIdx (mn step : ℚ) (bins : ℕ) (v : ℚ) : ℤ :=
  min ((bins : ℤ) - 1) (max 0 ⌊(v - mn) / step⌋)

/-- The statement `counts[idx]++`: increment the entry at one position of the
counts array. -/
def bump : List ℕ → ℕ → List ℕ
  | [], _ => []
  | x :: xs, 0 => (x + 1) :: xs
  | x :: xs, n + 1 => x :: bump xs n

/-- The counts array built by `values.forEach(v => { ... counts[idx]++ })`
over `Array.from({length:bins}, ()=>0)`. -/
def histCounts (values : List ℚ) (bins : ℕ) : List ℕ :=
  let mn := listMin values
  let step := histStep values bins
  values.foldl (fun acc v => bump acc (binIdx mn step bins v).toNat) (List.replicate bins 0)

theorem bump_length (l : List ℕ) (i : ℕ) : (bump l i).length = l.length := by
  induction l generalizing i with
  | nil => rfl
  | cons x xs ih => cases i with
    | zero => rfl
    | succ n => simp [bump, ih]

theorem bump_sum (l : List ℕ) (i : ℕ) (h : i < l.length) :
    (bump l i).sum = l.sum + 1 := by
  induction l generalizing i with
  | nil => simp at h
  | cons x xs ih =>
      cases i with
      | zero => simp [bump]; omega
      | succ n =>
          simp only [bump, List.sum_cons, ih n (by simpa using h)]
          omega

theorem foldl_bump_sum (f : ℚ → ℕ) (n : ℕ) (hf : ∀ v, f v < n)
    (vs : List ℚ) (acc : List ℕ) (hacc : acc.length = n) :
    (vs.foldl (fun a v => bump a (f v)) acc).sum = acc.sum + vs.length := by
  induction vs generalizing acc with
  | nil => simp
  | cons v vs ih =>
      simp only [List.foldl_cons, List.length_cons]
      rw [ih (bump acc (f v)) (by rw [bump_length, hacc]),
        bump_sum acc (f v) (by rw [hacc]; exact hf v)]
      omega

theorem binIdx_lt (mn step : ℚ) (bins : ℕ) (hb : 1 ≤ bins) (v : ℚ) :
    (binIdx mn step bins v).toNat < bins := by
  have h1 : binIdx mn step bins v ≤ (bins : ℤ) - 1 := min_le_left _ _
  have h2 : (binIdx mn step bins v).toNat ≤ ((bins : ℤ) - 1).toNat :=
    Int.toNat_le_toNat h1
  have h3 : ((bins : ℤ) - 1).toNat = bins - 1 := by omega
  omega

/-- C9: for a non-empty value list and `bins ≥ 1`, the bin width computed by
`Histogram` is nonzero (the `max-min||1` guard prevents division by zero), each
bin index of each value is clamped into `[0, bins-1]`, and the bin counts sum to the
number of values. -/
theorem histogram_invariants (values : List ℚ) (bins : ℕ) (v : ℚ)
    (hv : values ≠ []) (hb : 1 ≤ bins) (hmem : v ∈ values) :
    histStep values bins ≠ 0 ∧
    0 ≤ binIdx (listMin values) (histStep values bins) bins v ∧
    binIdx (listMin values) (histStep values bins) bins v ≤ (bins : ℤ) - 1 ∧
    (histCounts values bins).sum = values.length := by
  refine ⟨?_, ?_, min_le_left _ _, ?_⟩
  · have hbQ : (bins : ℚ) ≠ 0 := Nat.cast_ne_zero.mpr (by omega)
    unfold histStep
    split
    · exact div_ne_zero one_ne_zero hbQ
    · exact div_ne_zero (by assumption) hbQ
  · exact le_min (by omega) (le_max_left 0 _)
  · unfold histCounts
    rw [foldl_bump_sum _ bins
      (fun w => binIdx_lt (listMin values) (histStep values bins) bins hb w)
      values (List.replicate bins 0) (List.length_replicate bins 0)]
    simp

/-- Witness for C9: the histogram over `[0, 5, 10]` with 2 bins has nonzero
step `5`, puts the member value `5` into a bin in `[0, 1]`, and its counts sum
to the 3 values. -/
theorem histogram_invariants_witness :
    histStep [0, 5, 10] 2 ≠ 0 ∧
    0 ≤ binIdx (listMin [0, 5, 10]) (histStep [0, 5, 10] 2) 2 5 ∧
    binIdx (listMin [0, 5, 10]) (histStep [0, 5, 10] 2) 2 5 ≤ (2 : ℤ) - 1 ∧
    (histCounts [0, 5, 10] 2).sum = ([0, 5, 10] : List ℚ).length :=
  histogram_invariants [0, 5, 10] 2 5 (by simp) (by norm_num) (by norm_num)

/-! ## OptionSelector (spec §4.4; backend not present under src/) -/

/-- Modelled from the spec: one option contract of an `OptionChain`, as the
missing backend `OptionSelector` consumes it — `{type, strike, expiry_date,
mid_price, delta, liquidity}`. -/
structure ChainContract where
  type : OType
  strike : ℚ
  expiry_date : String
  mid_price : ℚ
  delta : ℚ
  liquidity : ℕ
deriving DecidableEq, Repr

/-- Delta-proximity ranking of §4.4: smaller `||delta| − 0.30|` first. -/
def deltaRank (a b : ChainContract) : Prop :=
  |(|a.delta| - 3 / 10)| ≤ |(|b.delta| - 3 / 10)|

instance : DecidableRel deltaRank := fun a b =>
  inferInstanceAs (Decidable (|(|a.delta| - 3 / 10)| ≤ |(|b.delta| - 3 / 10)|))

/-- Modelled from the spec: the missing backend `OptionSelector` candidate
selection (§4.4) on the contracts of the chosen expiry — directional bias
restricts the set to CALLs (bullish) or PUTs (otherwise); the affordability
filter excludes, before ranking, every contract with
`mid_price * 100 > buying_power`; the rest are ranked by delta proximity to
the 0.30 target and at most 3 are returned. -/
def selectContracts (bullish : Bool) (buying_power : ℚ)
    (chain : List ChainContract) : List ChainContract :=
  let wantType : OType := if bullish then .CALL else .PUT
  let cands := chain.filter fun c => c.type == wantType
  let aff := cands.filter fun c => decide (c.mid_price * 100 ≤ buying_power)
  (List.insertionSort deltaRank aff).take 3

/-- C3: every suggestion returned by `OptionSelector` satisfies
`mid_price * 100 ≤ buying_power`; unaffordable contracts are excluded before
ranking, so no returned suggestion exceeds the stated capital. -/
theorem selectContracts_affordable (bullish : Bool) (buying_power : ℚ)
    (chain : List ChainContract) (c : ChainContract)
    (h : c ∈ selectContracts bullish buying_power chain) :
    c.mid_price * 100 ≤ buying_power := by
  unfold selectContracts at h
  have h1 := List.mem_of_mem_take h
  have h2 := (List.perm_insertionSort deltaRank _).mem_iff.mp h1
  have h3 := (List.mem_filter.mp h2).2
  exact of_decide_eq_true h3

/-- Witness for C3: with buying power 300, the affordable CALL (premium 2,
so 200 ≤ 300) is returned from a chain that also holds an unaffordable one,
and the theorem bounds its cost. -/
theorem selectContracts_affordable_witness :
    (⟨.CALL, 105, "2025-11-21", 2, 1, 100⟩ : ChainContract).mid_price * 100 ≤ 300 :=
  selectContracts_affordable true 300
    [⟨.CALL, 105, "2025-11-21", 2, 1, 100⟩, ⟨.CALL, 110, "2025-11-21", 450, 1, 50⟩]
    ⟨.CALL, 105, "2025-11-21", 2, 1, 100⟩
    (by simp [selectContracts, List.insertionSort, List.orderedInsert, List.filter]; norm_num)

/-! ## Screener symbol-list normalization (spec §4.3; backend not present
under src/) -/

/-- Modelled from the spec: upper-casing of one ticker symbol, character by
character (the case normalization of §4.3). -/
def upperSymbol (s : String) : String :=
  ⟨s.data.map Char.toUpper⟩

/-- Modelled from the spec: the missing backend screener endpoint parses the
raw `symbols` request into "an ordered set of ticker symbols (deduplicated,
case-normalized, bounded to a maximum count, e.g. 25)" (§4.3). -/
def normalizeSymbols (symbols : List String) : List String :=
  ((symbols.map upperSymbol).dedup).take 25

/-- C7: the symbol list passed on to scoring holds no duplicates and no
mixed-case variants — it is bounded to 25 entries, duplicate-free, and every
entry is the upper-cased form of a submitted ticker. -/
theorem normalizeSymbols_spec (symbols : List String) (s : String)
    (hs : s ∈ normalizeSymbols symbols) :
    (normalizeSymbols symbols).Nodup ∧
    (normalizeSymbols symbols).length ≤ 25 ∧
    s ∈ symbols.map upperSymbol := by
  refine ⟨?_, ?_, ?_⟩
  · exact (symbols.map upperSymbol).nodup_dedup.sublist (List.take_sublist _ _)
  · simp [normalizeSymbols]
  · exact List.mem_dedup.mp (List.mem_of_mem_take hs)

/-- Witness for C7: normalizing `["aapl", "AAPL", "msft"]` yields the
duplicate-free upper-cased list containing `"AAPL"`. -/
theorem normalizeSymbols_spec_witness :
    (normalizeSymbols ["aapl", "AAPL", "msft"]).Nodup ∧
    (normalizeSymbols ["aapl", "AAPL", "msft"]).length ≤ 25 ∧
    "AAPL" ∈ ["aapl", "AAPL", "msft"].map upperSymbol :=
  normalizeSymbols_spec ["aapl", "AAPL", "msft"] "AAPL" (by decide)

end QuantClean
